import Mathlib

/-!
Verification of the orderwall order-book monitor (`src/main.py`,
`src/config.py`, `src/check_redis_data.py`).

The Python program keeps one mutable `OrderBookMonitor` object.  We embed it
shallowly: each mutating method becomes a pure function from the monitor state
(plus the inbound message and the wall-clock timestamp) to the new state.
Machine floats are modelled as rationals, `datetime.now()` as a count of
microseconds since the epoch with the accessor functions `minute`, `second`,
`microsecond` that the code actually reads, and a Python exception escaping a
block as an `Option`/`Except` result.

A Python dict `price -> quantity` is modelled as an association list kept
sorted by strictly ascending price (the dict has unique keys and every read in
the program sorts by price, so the sorted list is a canonical representation).
-/

namespace Orderwall

/-- Wall-clock instant, in microseconds since the epoch. -/
abbrev Timestamp := Nat

/-- `datetime.minute`: minute of the hour, 0–59. -/
def minuteOf (t : Timestamp) : Nat := t / 60000000 % 60

/-- `datetime.second`: second of the minute, 0–59. -/
def secondOf (t : Timestamp) : Nat := t / 1000000 % 60

/-- `datetime.microsecond`: microsecond within the second. -/
def microOf (t : Timestamp) : Nat := t % 1000000

/-- One side of the book: price/quantity pairs, canonical form sorted by
strictly ascending price (models the Python dict `price -> quantity`). -/
abbrev Side := List (ℚ × ℚ)

/-- Canonical-form invariant of a `Side`: keys strictly ascending
(hence unique, as in a dict). -/
abbrev keysSorted (s : Side) : Prop := s.Pairwise (fun a b => a.1 < b.1)

/-- Dict read `side.get(price)`: the quantity stored at `price`, if any. -/
def lookupSide : Side → ℚ → Option ℚ
  | [], _ => none
  | e :: rest, p => if e.1 = p then some e.2 else lookupSide rest p

/-- Dict write `side[price] = qty` on the sorted representation:
replace the quantity if the price is present, otherwise insert in order. -/
def setLevel : Side → ℚ → ℚ → Side
  | [], p, q => [(p, q)]
  | e :: rest, p, q =>
    if p < e.1 then (p, q) :: e :: rest
    else if p = e.1 then (p, q) :: rest
    else e :: setLevel rest p q

/-- Dict delete `side.pop(price, None)`: remove the level if present,
no-op otherwise. -/
def removeLevel (s : Side) (p : ℚ) : Side := s.filter (fun e => e.1 ≠ p)

/-- One parsed entry of `_update_orderbook` (`main.py` 233-236 / 242-245):
`qty > 0` upserts the level, otherwise the level is popped. -/
def applyEntry (s : Side) (p q : ℚ) : Side :=
  if 0 < q then setLevel s p q else removeLevel s p

/-- A raw `(price, qty)` pair from the wire; `none` marks a component on which
`float(...)` raises (`main.py` 231-232). -/
abbrev RawEntry := Option ℚ × Option ℚ

/-- Every entry of the list parses. -/
abbrev wellFormedEntries (l : List RawEntry) : Prop :=
  ∀ e ∈ l, e.1.isSome ∧ e.2.isSome

/-- The entry loop of `_update_orderbook` (`main.py` 230-236): entries are
applied in order; the first entry whose price or quantity fails to parse
raises, which aborts the loop (the `Bool` result records the abort). -/
def applyRawEntries : Side → List RawEntry → Side × Bool
  | s, [] => (s, false)
  | s, (some p, some q) :: rest => applyRawEntries (applyEntry s p q) rest
  | s, (some _, none) :: _ => (s, true)
  | s, (none, _) :: _ => (s, true)

/-- Proof device (not a piece of the program): the quantity carried by the
last entry of the list whose price parses to `p`, if any.  Used to
characterise what a whole delta does to one price level. -/
def lastFor (p : ℚ) : List RawEntry → Option ℚ
  | [] => none
  | e :: rest =>
    match lastFor p rest with
    | some q => some q
    | none =>
      match e with
      | (some p2, some q2) => if p2 = p then some q2 else none
      | _ => none

/-- The order book: `self.current_orderbook` (`main.py` 31-34). -/
structure Book where
  bids : Side
  asks : Side
deriving DecidableEq, Repr

/-- `_update_orderbook` (`main.py` 226-248): the single `try` around both
loops means an exception while updating the bids skips the whole ask loop,
and an exception in the ask loop skips its remaining entries; the `except`
only logs, so the partially updated book is kept. -/
def updateOrderbook (bk : Book) (bidEntries askEntries : List RawEntry) : Book :=
  match applyRawEntries bk.bids bidEntries with
  | (bids1, true) => { bk with bids := bids1 }
  | (bids1, false) =>
    match applyRawEntries bk.asks askEntries with
    | (asks1, _) => { bids := bids1, asks := asks1 }

/-- `self.current_metrics` (`main.py` 37-42). -/
structure Metrics where
  bid_volume : ℚ
  ask_volume : ℚ
  imbalance : ℚ
  current_price : ℚ
deriving DecidableEq, Repr

/-- `sorted(bids.items(), reverse=True)[:n]`: best (highest) bids first. -/
def topBids (s : Side) (n : Nat) : List (ℚ × ℚ) := s.reverse.take n

/-- `sorted(asks.items())[:n]`: best (lowest) asks first. -/
def topAsks (s : Side) (n : Nat) : List (ℚ × ℚ) := s.take n

/-- `sum(qty * price for _, qty in levels)` (`main.py` 262-269). -/
def topNotional (levels : List (ℚ × ℚ)) (price : ℚ) : ℚ :=
  (levels.map (fun e => e.2 * price)).sum

/-- `_calculate_metrics` (`main.py` 250-282).  All four fields are assigned
only inside `if bids and asks:`; with an empty side nothing runs and the
previous metrics survive unchanged. -/
def calculateMetrics (bk : Book) (prev : Metrics) : Metrics :=
  let bids := topBids bk.bids 10
  let asks := topAsks bk.asks 10
  if bids = [] ∨ asks = [] then prev
  else
    let price := ((bids.headD (0, 0)).1 + (asks.headD (0, 0)).1) / 2
    let bidVol := topNotional bids price
    let askVol := topNotional asks price
    let total := bidVol + askVol
    { bid_volume := bidVol, ask_volume := askVol,
      imbalance := if 0 < total then (bidVol - askVol) / total * 100 else 0,
      current_price := price }

/-- One timeframe history, `self.history[tf]` (`main.py` 45-49). -/
structure TFHistory where
  time : Option Timestamp
  imbalance : List ℚ
  bid_volume : List ℚ
  ask_volume : List ℚ
deriving DecidableEq, Repr

/-- The intra-minute buffer `self.current_minute_data` (`main.py` 67-72). -/
structure MinuteData where
  imbalances : List ℚ
  bid_volumes : List ℚ
  ask_volumes : List ℚ
  minute : Option Nat
deriving DecidableEq, Repr

/-- The whole monitor state. -/
structure Monitor where
  book : Book
  metrics : Metrics
  h1m : TFHistory
  h5m : TFHistory
  h15m : TFHistory
  minuteData : MinuteData
deriving DecidableEq, Repr

/-- `OrderBookMonitor.__init__` (`main.py` 29-72). -/
def initMonitor : Monitor :=
  { book := { bids := [], asks := [] },
    metrics := { bid_volume := 0, ask_volume := 0, imbalance := 0, current_price := 0 },
    h1m := { time := none, imbalance := [], bid_volume := [], ask_volume := [] },
    h5m := { time := none, imbalance := [], bid_volume := [], ask_volume := [] },
    h15m := { time := none, imbalance := [], bid_volume := [], ask_volume := [] },
    minuteData := { imbalances := [], bid_volumes := [], ask_volumes := [], minute := none } }

/-- Python slice `xs[-n:]`. -/
def lastN (n : Nat) (l : List ℚ) : List ℚ := l.drop (l.length - n)

/-- `_update_higher_timeframe` (`main.py` 453-468): appends
`sum(history1m[-n:]) / n` for each field — note the divisor is `n`
even when fewer than `n` 1m entries exist. -/
def updateHigherTimeframe (h1 tf : TFHistory) (t : Timestamp) (n : Nat) : TFHistory :=
  { time := some t,
    imbalance := tf.imbalance ++ [(lastN n h1.imbalance).sum / (n : ℚ)],
    bid_volume := tf.bid_volume ++ [(lastN n h1.bid_volume).sum / (n : ℚ)],
    ask_volume := tf.ask_volume ++ [(lastN n h1.ask_volume).sum / (n : ℚ)] }

/-- Appending the current metrics to the minute buffer (`main.py` 444-447). -/
def pushCurrent (md : MinuteData) (mt : Metrics) : MinuteData :=
  { md with imbalances := md.imbalances ++ [mt.imbalance],
            bid_volumes := md.bid_volumes ++ [mt.bid_volume],
            ask_volumes := md.ask_volumes ++ [mt.ask_volume] }

/-- The flush arm of `_update_history` (`main.py` 380-434): when the buffered
minute is set and the buffer is non-empty, the buffered means are appended to
the 1m history; the 5m (and, nested inside, the 15m) rollup runs only when
the triggering update lands in the first 100 ms of second 0.  `none` models
the `ZeroDivisionError` when `bid_volumes`/`ask_volumes` is empty while
`imbalances` is not (the surrounding `except` then skips the rest of
`_update_history`); that state never arises, the three lists grow in step. -/
def flushMinute (m : Monitor) (t : Timestamp) : Option Monitor :=
  if m.minuteData.minute ≠ none ∧ m.minuteData.imbalances ≠ [] then
    if m.minuteData.bid_volumes = [] ∨ m.minuteData.ask_volumes = [] then none
    else
      let md := m.minuteData
      let h1 : TFHistory :=
        { time := some t,
          imbalance := m.h1m.imbalance ++ [md.imbalances.sum / (md.imbalances.length : ℚ)],
          bid_volume := m.h1m.bid_volume ++ [md.bid_volumes.sum / (md.bid_volumes.length : ℚ)],
          ask_volume := m.h1m.ask_volume ++ [md.ask_volumes.sum / (md.ask_volumes.length : ℚ)] }
      let m1 := { m with h1m := h1 }
      some (
        if secondOf t = 0 ∧ microOf t < 100000 then
          if minuteOf t % 5 = 0 then
            let m2 := { m1 with h5m := updateHigherTimeframe m1.h1m m1.h5m t 5 }
            if minuteOf t % 15 = 0 then
              { m2 with h15m := updateHigherTimeframe m2.h1m m2.h15m t 15 }
            else m2
          else m1
        else m1)
  else some m

/-- `_update_history` (`main.py` 374-451): on a change of the minute-of-hour
value the buffer is flushed and reset, then the current metrics are appended
to the buffer; on the exception path nothing after the flush runs. -/
def updateHistory (m : Monitor) (t : Timestamp) : Monitor :=
  if m.minuteData.minute = some (minuteOf t) then
    { m with minuteData := pushCurrent m.minuteData m.metrics }
  else
    match flushMinute m t with
    | none => m
    | some m1 =>
      { m1 with minuteData :=
          pushCurrent { imbalances := [], bid_volumes := [], ask_volumes := [],
                        minute := some (minuteOf t) } m1.metrics }

/-- The inbound depth-diff message: bid entries and ask entries. -/
structure DepthMsg where
  b : List RawEntry
  a : List RawEntry

/-- `process_depth_message` (`main.py` 205-224): book update, metrics,
history update, then `_print_debug_info` (pure logging, no state change).
`generate_signals` is never invoked here, so processing a delta emits no
signal list. -/
def processDepthMessage (m : Monitor) (msg : DepthMsg) (t : Timestamp) : Monitor :=
  let m1 := { m with book := updateOrderbook m.book msg.b msg.a }
  let m2 := { m1 with metrics := calculateMetrics m1.book m1.metrics }
  updateHistory m2 t

/-- `_cleanup_history` (`main.py` 470-481) applied to one list: pop from the
front while the length exceeds the cap.  This method is defined in the source
but never called from anywhere. -/
def cleanupList (cap : Nat) (l : List ℚ) : List ℚ := l.drop (l.length - cap)

/-- `_cleanup_history` (`main.py` 470-481): caps 60 / 12 / 4. -/
def cleanupHistory (m : Monitor) : Monitor :=
  { m with
    h1m := { m.h1m with imbalance := cleanupList 60 m.h1m.imbalance,
                        bid_volume := cleanupList 60 m.h1m.bid_volume,
                        ask_volume := cleanupList 60 m.h1m.ask_volume },
    h5m := { m.h5m with imbalance := cleanupList 12 m.h5m.imbalance,
                        bid_volume := cleanupList 12 m.h5m.bid_volume,
                        ask_volume := cleanupList 12 m.h5m.ask_volume },
    h15m := { m.h15m with imbalance := cleanupList 4 m.h15m.imbalance,
                          bid_volume := cleanupList 4 m.h15m.bid_volume,
                          ask_volume := cleanupList 4 m.h15m.ask_volume } }

/-- The record `analyze_timeframe` returns (`main.py` 122-126 / 151-155).
Its keys are `trend_ascii`, `current_imbalance`, `volume_ratio` — there is
no key `trend`. -/
structure TFAnalysis where
  trendAscii : String
  currentImbalance : ℚ
  volumeQuotient : ℚ
deriving DecidableEq, Repr

/-- `analyze_timeframe` (`main.py` 117-162).  With fewer than `minHistory`
entries it still builds a result from the last entries — raising (hence
`none`) when a list is empty or the last ask volume is zero; with enough
entries it computes the trend over the last 10 entries.  Every exception is
caught and turned into `None`. -/
def analyzeTimeframe (h : TFHistory) (minHistory : Nat) : Option TFAnalysis :=
  if h.imbalance.length < minHistory then
    match h.imbalance.getLast?, h.bid_volume.getLast?, h.ask_volume.getLast? with
    | some ci, some bv, some av =>
      if av = 0 then none
      else some { trendAscii := "-", currentImbalance := ci, volumeQuotient := bv / av }
    | _, _, _ => none
  else if h.imbalance.length < 2 then none
  else
    let imbalances := lastN 10 h.imbalance
    let vb := lastN 10 h.bid_volume
    let va := lastN 10 h.ask_volume
    match imbalances.head?, imbalances.getLast?, vb.getLast?, va.getLast? with
    | some frst, some lst, some bvL, some avL =>
      some { trendAscii := if frst + 5 < lst then "UP"
                           else if lst < frst - 5 then "DOWN" else "-",
             currentImbalance := lst,
             volumeQuotient := if 0 < avL then bvL / avL else 1 }
    | _, _, _, _ => none

/-- `generate_signals` (`main.py` 526-569).  It first analyzes all three
timeframes and returns the empty list if any analysis is `None`
(`if not all(analysis.values()): return signals`).  Otherwise it appends the
imbalance signal and then evaluates `a['trend']` — a key `analyze_timeframe`
never produces — so a `KeyError` escapes and no list is returned; the
`Except.error` result models that uncaught exception. -/
def generateSignals (m : Monitor) : Except String (List String) :=
  if (analyzeTimeframe m.h1m 3).isSome ∧ (analyzeTimeframe m.h5m 3).isSome
      ∧ (analyzeTimeframe m.h15m 3).isSome then
    Except.error "KeyError: trend"
  else
    Except.ok []

/-- The quantities pooled by `detect_large_orders` (`main.py` 576-582):
top-20 of each side, both sides together. -/
def largeVolumes (bk : Book) : List ℚ :=
  (topBids bk.bids 20).map (fun e => e.2) ++ (topAsks bk.asks 20).map (fun e => e.2)

/-- `avg_volume` of `detect_large_orders` (`main.py` 586). -/
def largeMean (bk : Book) : ℚ :=
  (largeVolumes bk).sum / ((largeVolumes bk).length : ℚ)

/-- `threshold = avg_volume * 5` (`main.py` 587). -/
def largeThreshold (bk : Book) : ℚ := largeMean bk * 5

/-- Result of `detect_large_orders`. -/
structure LargeOrders where
  bids : List (ℚ × ℚ)
  asks : List (ℚ × ℚ)
deriving DecidableEq, Repr

/-- `detect_large_orders` (`main.py` 571-602): a level is large when its
quantity is strictly greater than five times the pooled mean quantity. -/
def detectLargeOrders (bk : Book) : LargeOrders :=
  if largeVolumes bk = [] then { bids := [], asks := [] }
  else
    { bids := (topBids bk.bids 20).filter (fun e => largeThreshold bk < e.2),
      asks := (topAsks bk.asks 20).filter (fun e => largeThreshold bk < e.2) }

/-! Concrete states used to evaluate the definitions on explicit inputs. -/

/-- A monitor state whose three histories each hold one entry with non-zero
last ask volume, so that all three timeframe analyses succeed; the buffered
minute matches minute 0, so processing at `t = 0` flushes nothing. -/
def c1State : Monitor :=
  { book := { bids := [], asks := [] },
    metrics := { bid_volume := 1, ask_volume := 1, imbalance := 0, current_price := 1 },
    h1m := { time := none, imbalance := [0], bid_volume := [1], ask_volume := [1] },
    h5m := { time := none, imbalance := [0], bid_volume := [1], ask_volume := [1] },
    h15m := { time := none, imbalance := [0], bid_volume := [1], ask_volume := [1] },
    minuteData := { imbalances := [0], bid_volumes := [1], ask_volumes := [1], minute := some 0 } }

/-- Timestamp stream for the long run: one update per minute, 500 ms into
second 0 (so the 5m/15m branch, gated on `microsecond < 100000`, never runs). -/
def c2Stamp (k : Nat) : Timestamp := k * 60000000 + 500000

/-- The monitor after processing `k` empty deltas at `c2Stamp 0 .. c2Stamp (k-1)`. -/
def c2Run (k : Nat) : Monitor :=
  ((List.range k).map c2Stamp).foldl
    (fun m t => processDepthMessage m { b := [], a := [] } t) initMonitor

/-- Book with an empty bid side. -/
def c3Book : Book := { bids := [], asks := [(2, 1)] }

/-- Non-zero metrics left over from earlier deltas. -/
def c3Prev : Metrics :=
  { bid_volume := 3, ask_volume := 3/2, imbalance := 100/3, current_price := 3/2 }

/-- State about to roll over from buffered minute 4 into minute 5, with a
full 1m history of five entries and an empty 5m history. -/
def c5State : Monitor :=
  { book := { bids := [], asks := [] },
    metrics := { bid_volume := 0, ask_volume := 0, imbalance := 0, current_price := 0 },
    h1m := { time := none, imbalance := [1, 1, 1, 1, 1], bid_volume := [1, 1, 1, 1, 1],
             ask_volume := [1, 1, 1, 1, 1] },
    h5m := { time := none, imbalance := [], bid_volume := [], ask_volume := [] },
    h15m := { time := none, imbalance := [], bid_volume := [], ask_volume := [] },
    minuteData := { imbalances := [1], bid_volumes := [1], ask_volumes := [1], minute := some 4 } }

/-- State about to roll over from buffered minute 14 into minute 15 with four
1m entries buffered. -/
def c5wState : Monitor :=
  { book := { bids := [], asks := [] },
    metrics := { bid_volume := 0, ask_volume := 0, imbalance := 0, current_price := 0 },
    h1m := { time := none, imbalance := [1, 1, 1, 1], bid_volume := [1, 1, 1, 1],
             ask_volume := [1, 1, 1, 1] },
    h5m := { time := none, imbalance := [], bid_volume := [], ask_volume := [] },
    h15m := { time := none, imbalance := [], bid_volume := [], ask_volume := [] },
    minuteData := { imbalances := [2], bid_volumes := [2], ask_volumes := [2], minute := some 14 } }

/-- Extreme imbalance (50 %) with an empty 5m history. -/
def c6State : Monitor :=
  { book := { bids := [], asks := [] },
    metrics := { bid_volume := 0, ask_volume := 0, imbalance := 50, current_price := 0 },
    h1m := { time := none, imbalance := [1], bid_volume := [1], ask_volume := [1] },
    h5m := { time := none, imbalance := [], bid_volume := [], ask_volume := [] },
    h15m := { time := none, imbalance := [1], bid_volume := [1], ask_volume := [1] },
    minuteData := { imbalances := [], bid_volumes := [], ask_volumes := [], minute := none } }

/-- Book with an empty ask side. -/
def c7Book : Book := { bids := [(1, 2)], asks := [] }

/-- Non-zero metrics left over from earlier deltas. -/
def c7Prev : Metrics :=
  { bid_volume := 3, ask_volume := 3/2, imbalance := 100/3, current_price := 3/2 }

/-- Two-sided book with positive quantities. -/
def c7wBook : Book := { bids := [(1, 2)], asks := [(3, 1)] }

/-- Book realising the spec's large-order example: top bid quantities
`[1, 1, 1, 1, 20]`, empty ask side. -/
def c9Book : Book := { bids := [(1, 1), (2, 1), (3, 1), (4, 1), (5, 20)], asks := [] }

/-! ## Lemmas about the sorted association-list book representation -/

theorem mem_setLevel {s : Side} {p q : ℚ} :
    ∀ e ∈ setLevel s p q, e = (p, q) ∨ e ∈ s := by
  induction s with
  | nil =>
    intro e he
    simp only [setLevel, List.mem_singleton] at he
    exact Or.inl he
  | cons f rest ih =>
    intro e he
    rw [setLevel] at he
    split_ifs at he with h1 h2
    · rcases List.mem_cons.mp he with he | he
      · exact Or.inl he
      · exact Or.inr he
    · rcases List.mem_cons.mp he with he | he
      · exact Or.inl he
      · exact Or.inr (List.mem_cons_of_mem _ he)
    · rcases List.mem_cons.mp he with he | he
      · exact Or.inr (he ▸ List.mem_cons_self _ _)
      · rcases ih e he with he2 | he2
        · exact Or.inl he2
        · exact Or.inr (List.mem_cons_of_mem _ he2)

theorem keysSorted_setLevel {s : Side} (p q : ℚ) (hs : keysSorted s) :
    keysSorted (setLevel s p q) := by
  induction s with
  | nil => simp [setLevel, keysSorted]
  | cons f rest ih =>
    obtain ⟨hf, hrest⟩ := List.pairwise_cons.mp hs
    rw [setLevel]
    split_ifs with h1 h2
    · refine List.Pairwise.cons ?_ (List.Pairwise.cons hf hrest)
      intro e he
      rcases List.mem_cons.mp he with rfl | he
      · exact h1
      · exact lt_trans h1 (hf e he)
    · refine List.Pairwise.cons ?_ hrest
      intro e he
      rw [h2]
      exact hf e he
    · refine List.Pairwise.cons ?_ (ih hrest)
      have hfp : f.1 < p :=
        lt_of_le_of_ne (le_of_not_lt h1) (fun hh => h2 hh.symm)
      intro e he
      rcases mem_setLevel e he with rfl | he
      · exact hfp
      · exact hf e he

theorem keysSorted_applyEntry {s : Side} (p q : ℚ) (hs : keysSorted s) :
    keysSorted (applyEntry s p q) := by
  rw [applyEntry]
  split_ifs
  · exact keysSorted_setLevel p q hs
  · exact hs.filter _

theorem keysSorted_applyRawEntries {l : List RawEntry} :
    ∀ {s : Side}, keysSorted s → keysSorted (applyRawEntries s l).1 := by
  induction l with
  | nil => intro s hs; exact hs
  | cons e rest ih =>
    intro s hs
    obtain ⟨po, qo⟩ := e
    cases po with
    | none => exact hs
    | some p1 =>
      cases qo with
      | none => exact hs
      | some q1 => exact ih (keysSorted_applyEntry p1 q1 hs)

theorem lookupSide_setLevel (s : Side) (p p2 q : ℚ) :
    lookupSide (setLevel s p q) p2 = if p2 = p then some q else lookupSide s p2 := by
  induction s with
  | nil => simp [setLevel, lookupSide, eq_comm]
  | cons f rest ih =>
    rw [setLevel]
    by_cases h1 : p < f.1
    · rw [if_pos h1]
      by_cases hp : p2 = p
      · subst hp; simp [lookupSide]
      · simp [lookupSide, hp, Ne.symm hp]
    · rw [if_neg h1]
      by_cases h2 : p = f.1
      · rw [if_pos h2]
        by_cases hp : p2 = p
        · subst hp; simp [lookupSide]
        · have hf : f.1 ≠ p2 := by rw [← h2]; exact Ne.symm hp
          simp [lookupSide, hp, Ne.symm hp, hf]
      · rw [if_neg h2]
        have hfp : f.1 < p :=
          lt_of_le_of_ne (le_of_not_lt h1) (fun hh => h2 hh.symm)
        by_cases hf : f.1 = p2
        · have hp : ¬ p2 = p := by
            rw [← hf]
            exact ne_of_lt hfp
          simp [lookupSide, hf, hp]
        · simp [lookupSide, hf, ih]

theorem lookupSide_removeLevel (s : Side) (p p2 : ℚ) :
    lookupSide (removeLevel s p) p2 = if p2 = p then none else lookupSide s p2 := by
  induction s with
  | nil => simp [removeLevel, lookupSide]
  | cons f rest ih =>
    rw [removeLevel, List.filter_cons]
    rw [removeLevel] at ih
    by_cases hf : f.1 = p
    · rw [if_neg (by simp [hf])]
      rw [ih]
      by_cases hp : p2 = p
      · simp [hp]
      · have hf2 : f.1 ≠ p2 := by rw [hf]; exact Ne.symm hp
        simp [hp, lookupSide, hf2]
    · rw [if_pos (by simp [hf])]
      rw [lookupSide]
      by_cases hf2 : f.1 = p2
      · have hp : ¬ p2 = p := fun hh => hf (hf2.trans hh)
        rw [if_pos hf2, if_neg hp, lookupSide, if_pos hf2]
      · rw [if_neg hf2, ih, lookupSide, if_neg hf2]

theorem lookupSide_applyEntry (s : Side) (p p2 q : ℚ) :
    lookupSide (applyEntry s p q) p2 =
      if p2 = p then (if 0 < q then some q else none) else lookupSide s p2 := by
  rw [applyEntry]
  by_cases hq : 0 < q
  · simp [hq, lookupSide_setLevel]
  · simp [hq, lookupSide_removeLevel]

theorem lookupSide_eq_none_iff (s : Side) (p : ℚ) :
    lookupSide s p = none ↔ ∀ e ∈ s, e.1 ≠ p := by
  induction s with
  | nil => simp [lookupSide]
  | cons f rest ih => by_cases hf : f.1 = p <;> simp [lookupSide, hf, ih]

theorem removeLevel_eq_self {s : Side} {p : ℚ} (h : lookupSide s p = none) :
    removeLevel s p = s := by
  rw [removeLevel, List.filter_eq_self]
  intro e he
  simpa using (lookupSide_eq_none_iff s p).mp h e he

theorem applyRawEntries_snd (L : List RawEntry) :
    wellFormedEntries L → ∀ s : Side, (applyRawEntries s L).2 = false := by
  induction L with
  | nil => intro _ s; rfl
  | cons e rest ih =>
    intro hw s
    obtain ⟨po, qo⟩ := e
    obtain ⟨p1, rfl⟩ := Option.isSome_iff_exists.mp (hw _ (List.mem_cons_self _ _)).1
    obtain ⟨q1, rfl⟩ := Option.isSome_iff_exists.mp (hw _ (List.mem_cons_self _ _)).2
    exact ih (fun x hx => hw x (List.mem_cons_of_mem _ hx)) _

theorem lookupSide_applyRawEntries (L : List RawEntry) :
    wellFormedEntries L → ∀ (s : Side) (p : ℚ),
      lookupSide (applyRawEntries s L).1 p =
        (match lastFor p L with
          | some q => if 0 < q then some q else none
          | none => lookupSide s p) := by
  induction L with
  | nil => intro _ s p; simp [applyRawEntries, lastFor]
  | cons e rest ih =>
    intro hw s p
    obtain ⟨po, qo⟩ := e
    obtain ⟨p1, rfl⟩ := Option.isSome_iff_exists.mp (hw _ (List.mem_cons_self _ _)).1
    obtain ⟨q1, rfl⟩ := Option.isSome_iff_exists.mp (hw _ (List.mem_cons_self _ _)).2
    have hw2 : wellFormedEntries rest := fun x hx => hw x (List.mem_cons_of_mem _ hx)
    have hstep : applyRawEntries s ((some p1, some q1) :: rest)
        = applyRawEntries (applyEntry s p1 q1) rest := rfl
    rw [hstep, ih hw2 (applyEntry s p1 q1) p, lastFor]
    cases hl : lastFor p rest with
    | some q => simp
    | none =>
      simp only
      by_cases hp : p1 = p
      · subst hp
        simp [lookupSide_applyEntry]
      · simp [lookupSide_applyEntry, hp, Ne.symm hp]

theorem keysSorted_ext : ∀ {s t : Side}, keysSorted s → keysSorted t →
    (∀ p, lookupSide s p = lookupSide t p) → s = t := by
  intro s
  induction s with
  | nil =>
    intro t _ _ h
    cases t with
    | nil => rfl
    | cons f t2 =>
      have hx := h f.1
      rw [lookupSide, lookupSide, if_pos rfl] at hx
      exact absurd hx (by simp)
  | cons e s2 ih =>
    intro t hs ht h
    cases t with
    | nil =>
      have hx := h e.1
      rw [lookupSide, lookupSide, if_pos rfl] at hx
      exact absurd hx (by simp)
    | cons f t2 =>
      obtain ⟨hs1, hs2⟩ := List.pairwise_cons.mp hs
      obtain ⟨ht1, ht2⟩ := List.pairwise_cons.mp ht
      have hef : e.1 = f.1 := by
        by_contra hne
        have h1 := h e.1
        rw [lookupSide, if_pos rfl, lookupSide, if_neg (fun hh => hne hh.symm)] at h1
        have h2 := h f.1
        rw [lookupSide, if_neg hne, lookupSide, if_pos rfl] at h2
        have hm1 : ∃ x ∈ t2, x.1 = e.1 := by
          by_contra hall
          push_neg at hall
          rw [(lookupSide_eq_none_iff t2 e.1).mpr hall] at h1
          exact absurd h1 (by simp)
        have hm2 : ∃ x ∈ s2, x.1 = f.1 := by
          by_contra hall
          push_neg at hall
          rw [(lookupSide_eq_none_iff s2 f.1).mpr hall] at h2
          exact absurd h2.symm (by simp)
        obtain ⟨x1, hx1, hx1e⟩ := hm1
        obtain ⟨x2, hx2, hx2e⟩ := hm2
        have hlt1 : f.1 < e.1 := hx1e ▸ ht1 x1 hx1
        have hlt2 : e.1 < f.1 := hx2e ▸ hs1 x2 hx2
        exact absurd hlt1 (lt_asymm hlt2)
      have hval : e.2 = f.2 := by
        have h1 := h e.1
        rw [lookupSide, if_pos rfl, lookupSide, if_pos hef.symm] at h1
        exact Option.some.inj h1
      have htail : ∀ p, lookupSide s2 p = lookupSide t2 p := by
        intro p
        by_cases hp : e.1 = p
        · rw [(lookupSide_eq_none_iff s2 p).mpr
            (fun x hx => hp ▸ ne_of_gt (hs1 x hx)),
            (lookupSide_eq_none_iff t2 p).mpr
            (fun x hx => (hef ▸ hp : f.1 = p) ▸ ne_of_gt (ht1 x hx))]
        · have hx := h p
          rw [lookupSide, if_neg hp, lookupSide, if_neg (hef ▸ hp)] at hx
          exact hx
      have he : e = f := Prod.ext hef hval
      rw [he, ih hs2 ht2 htail]

theorem applyRawEntries_idem (L : List RawEntry) (hL : wellFormedEntries L)
    (s : Side) (hs : keysSorted s) :
    (applyRawEntries (applyRawEntries s L).1 L).1 = (applyRawEntries s L).1 := by
  refine keysSorted_ext
    (keysSorted_applyRawEntries (keysSorted_applyRawEntries hs))
    (keysSorted_applyRawEntries hs) ?_
  intro p
  rw [lookupSide_applyRawEntries L hL, lookupSide_applyRawEntries L hL]
  cases hl : lastFor p L with
  | some q => rfl
  | none => rfl

theorem updateOrderbook_wf (bk : Book) (B A : List RawEntry) (hB : wellFormedEntries B) :
    updateOrderbook bk B A =
      { bids := (applyRawEntries bk.bids B).1, asks := (applyRawEntries bk.asks A).1 } := by
  have hsnd := applyRawEntries_snd B hB bk.bids
  rcases hEq : applyRawEntries bk.bids B with ⟨b1, bf⟩
  rw [hEq] at hsnd
  simp only at hsnd
  subst hsnd
  rcases hEq2 : applyRawEntries bk.asks A with ⟨a1, af⟩
  simp [updateOrderbook, hEq, hEq2]

theorem applyRawEntries_abort (pre : List RawEntry) :
    wellFormedEntries pre → ∀ bad : RawEntry, (bad.1 = none ∨ bad.2 = none) →
      ∀ (post : List RawEntry) (s : Side),
        applyRawEntries s (pre ++ bad :: post) = ((applyRawEntries s pre).1, true) := by
  induction pre with
  | nil =>
    intro _ bad hbad post s
    obtain ⟨po, qo⟩ := bad
    cases po with
    | none => rfl
    | some p1 =>
      cases qo with
      | none => rfl
      | some q1 => rcases hbad with h | h <;> exact absurd h (by simp)
  | cons e rest ih =>
    intro hw bad hbad post s
    obtain ⟨po, qo⟩ := e
    obtain ⟨p1, rfl⟩ := Option.isSome_iff_exists.mp (hw _ (List.mem_cons_self _ _)).1
    obtain ⟨q1, rfl⟩ := Option.isSome_iff_exists.mp (hw _ (List.mem_cons_self _ _)).2
    simp only [List.cons_append]
    have hstep : applyRawEntries s ((some p1, some q1) :: (rest ++ bad :: post))
        = applyRawEntries (applyEntry s p1 q1) (rest ++ bad :: post) := rfl
    rw [hstep, ih (fun x hx => hw x (List.mem_cons_of_mem _ hx)) bad hbad post]
    rfl

/-! ## The claims -/

/-- Claim C8 (confirmed): for every canonically represented book and every
well-formed delta, applying the identical delta twice in succession yields
exactly the same book as applying it once.  One entry acts on its own price
level only: the second conjunct shows `qty > 0` stores exactly `qty` (no
accumulation) and leaves every other level unchanged, while `qty ≤ 0` removes
the level; the third conjunct shows removal of an absent level is a no-op. -/
theorem c8_apply_idempotent (bk : Book) (B A : List RawEntry) (s : Side) (p p2 q : ℚ)
    (hB : wellFormedEntries B) (hA : wellFormedEntries A)
    (hbs : keysSorted bk.bids) (hks : keysSorted bk.asks) :
    updateOrderbook (updateOrderbook bk B A) B A = updateOrderbook bk B A
    ∧ lookupSide (applyEntry s p q) p2 =
        (if p2 = p then (if 0 < q then some q else none) else lookupSide s p2)
    ∧ (q ≤ 0 → lookupSide s p = none → applyEntry s p q = s) := by
  refine ⟨?_, lookupSide_applyEntry s p p2 q, ?_⟩
  · rw [updateOrderbook_wf bk B A hB]
    rw [updateOrderbook_wf _ B A hB]
    simp only [Book.mk.injEq]
    exact ⟨applyRawEntries_idem B hB bk.bids hbs, applyRawEntries_idem A hA bk.asks hks⟩
  · intro hq hnone
    rw [applyEntry, if_neg (not_lt.mpr hq)]
    exact removeLevel_eq_self hnone

/-- Witness for C8 on a concrete book and delta. -/
theorem c8_apply_idempotent_inst :
    updateOrderbook
        (updateOrderbook { bids := [(1, 2)], asks := [(2, 1)] }
          [(some 1, some 3), (some 3, some 5), (some 3, some 0)] [(some 2, some 0)])
        [(some 1, some 3), (some 3, some 5), (some 3, some 0)] [(some 2, some 0)]
      = updateOrderbook { bids := [(1, 2)], asks := [(2, 1)] }
          [(some 1, some 3), (some 3, some 5), (some 3, some 0)] [(some 2, some 0)]
    ∧ lookupSide (applyEntry [(1, 2)] 1 3) 2 =
        (if (2 : ℚ) = 1 then (if (0 : ℚ) < 3 then some 3 else none) else lookupSide [(1, 2)] 2)
    ∧ ((3 : ℚ) ≤ 0 → lookupSide [(1, 2)] 1 = none → applyEntry [(1, 2)] 1 3 = [(1, 2)]) :=
  c8_apply_idempotent { bids := [(1, 2)], asks := [(2, 1)] }
    [(some 1, some 3), (some 3, some 5), (some 3, some 0)] [(some 2, some 0)]
    [(1, 2)] 1 2 3 (by decide) (by decide) (by decide) (by decide)

/-- Counterexample to C4 as stated: the first bid entry fails to parse, and
contrary to the claim the later well-formed bid `(2, 3)` and the ask entry
`(5, 7)` of the same delta are not applied — the book stays empty. -/
theorem c4_malformed_aborts_delta :
    updateOrderbook { bids := [], asks := [] }
        [((none : Option ℚ), (none : Option ℚ)), (some 2, some 3)] [(some 5, some 7)]
      = { bids := [], asks := [] } := rfl

/-- Claim C4 (corrected): entries strictly before the first malformed entry
are applied; the malformed entry and everything after it in the delta is
skipped — including the whole ask list when the malformed entry is a bid
(first conjunct); a malformed ask entry likewise drops the remaining ask
entries while the fully parsed bid list stays applied (second conjunct). -/
theorem c4_prefix_applied (bk : Book) (pre post preA postA B2 A2 : List RawEntry)
    (bad badA : RawEntry)
    (hpre : wellFormedEntries pre) (hbad : bad.1 = none ∨ bad.2 = none)
    (hB2 : wellFormedEntries B2) (hpreA : wellFormedEntries preA)
    (hbadA : badA.1 = none ∨ badA.2 = none) :
    updateOrderbook bk (pre ++ bad :: post) A2
        = { bids := (applyRawEntries bk.bids pre).1, asks := bk.asks }
    ∧ updateOrderbook bk B2 (preA ++ badA :: postA)
        = { bids := (applyRawEntries bk.bids B2).1,
            asks := (applyRawEntries bk.asks preA).1 } := by
  constructor
  · simp only [updateOrderbook, applyRawEntries_abort pre hpre bad hbad post]
  · have hsnd := applyRawEntries_snd B2 hB2 bk.bids
    rcases hq : applyRawEntries bk.bids B2 with ⟨b1, bf⟩
    rw [hq] at hsnd
    simp only at hsnd
    subst hsnd
    simp only [updateOrderbook, hq, applyRawEntries_abort preA hpreA badA hbadA postA]

/-- Witness for C4 on concrete deltas. -/
theorem c4_prefix_applied_inst :
    updateOrderbook { bids := [], asks := [] }
        ([((some 1 : Option ℚ), (some 2 : Option ℚ))] ++ (none, none) :: []) []
        = { bids := (applyRawEntries ([] : Side) [((some 1 : Option ℚ), (some 2 : Option ℚ))]).1,
            asks := [] }
    ∧ updateOrderbook { bids := [], asks := [] } [] (([] : List RawEntry) ++ (none, none) :: [])
        = { bids := (applyRawEntries ([] : Side) ([] : List RawEntry)).1,
            asks := (applyRawEntries ([] : Side) ([] : List RawEntry)).1 } :=
  c4_prefix_applied { bids := [], asks := [] } [(some 1, some 2)] [] [] [] [] []
    (none, none) (none, none) (by decide) (by decide) (by decide) (by decide) (by decide)

/-- Claim C9 (confirmed): `detect_large_orders` pools the top-20 levels of
both sides, takes the arithmetic mean quantity, sets threshold = mean × 5,
and flags exactly the considered levels whose quantity strictly exceeds the
threshold; on top-20 bid quantities `[1, 1, 1, 1, 20]` with an empty ask
side, the mean is 4.8, the threshold is 24, and nothing is flagged. -/
theorem c9_large_orders_mean_threshold (bk : Book) (p q : ℚ) :
    ((p, q) ∈ (detectLargeOrders bk).bids
        ↔ (p, q) ∈ topBids bk.bids 20 ∧ largeThreshold bk < q)
    ∧ ((p, q) ∈ (detectLargeOrders bk).asks
        ↔ (p, q) ∈ topAsks bk.asks 20 ∧ largeThreshold bk < q)
    ∧ largeMean c9Book = 24/5
    ∧ largeThreshold c9Book = 24
    ∧ detectLargeOrders c9Book = { bids := [], asks := [] } := by
  refine ⟨?_, ?_, ?_, ?_, ?_⟩
  · rw [detectLargeOrders]
    by_cases hv : largeVolumes bk = []
    · rw [if_pos hv]
      have hb : topBids bk.bids 20 = [] := by
        have h2 := List.append_eq_nil.mp hv
        exact List.map_eq_nil_iff.mp h2.1
      simp [hb]
    · rw [if_neg hv]
      simp [List.mem_filter]
  · rw [detectLargeOrders]
    by_cases hv : largeVolumes bk = []
    · rw [if_pos hv]
      have ha : topAsks bk.asks 20 = [] := by
        have h2 := List.append_eq_nil.mp hv
        exact List.map_eq_nil_iff.mp h2.2
      simp [ha]
    · rw [if_neg hv]
      simp [List.mem_filter]
  · norm_num [largeMean, largeVolumes, topBids, topAsks, c9Book]
  · norm_num [largeThreshold, largeMean, largeVolumes, topBids, topAsks, c9Book]
  · norm_num [detectLargeOrders, largeThreshold, largeMean, largeVolumes, topBids,
      topAsks, c9Book]

/-- Counterexample to C3 as stated: with the bid side empty, the snapshot
does not degrade to zero — `_calculate_metrics` leaves every previous
(non-zero) metric in place. -/
theorem c3_empty_side_keeps_metrics :
    c3Book.bids = [] ∧ calculateMetrics c3Book c3Prev = c3Prev
    ∧ c3Prev.current_price ≠ 0 := by
  refine ⟨rfl, ?_, ?_⟩
  · norm_num [calculateMetrics, c3Book, topBids, topAsks]
  · norm_num [c3Prev]

/-- Claim C3 (corrected): when either side of the book is empty, computing
metrics returns the previous metrics unchanged (carry-forward); the fields
are all zero only as long as no two-sided computation ever happened. -/
theorem c3_empty_side_carries_forward (bk : Book) (prev : Metrics)
    (h : bk.bids = [] ∨ bk.asks = []) : calculateMetrics bk prev = prev := by
  rcases h with h | h
  · simp [calculateMetrics, topBids, h]
  · simp [calculateMetrics, topAsks, h]

/-- Witness for C3: the carry-forward equation at the concrete book. -/
theorem c3_empty_side_carries_forward_inst :
    (c3Book.bids = [] ∨ c3Book.asks = [])
    ∧ calculateMetrics c3Book
        { bid_volume := 1, ask_volume := 2, imbalance := 3, current_price := 4 }
      = { bid_volume := 1, ask_volume := 2, imbalance := 3, current_price := 4 } :=
  ⟨Or.inl rfl, c3_empty_side_carries_forward c3Book _ (Or.inl rfl)⟩

/-- Counterexample to C6 as stated: the snapshot imbalance is 50 % (above
the 40 % threshold) but the 5m history is empty, and `generate_signals`
returns the empty list — the imbalance-extreme rule emits nothing. -/
theorem c6_extreme_imbalance_no_signal :
    (40 : ℚ) < |c6State.metrics.imbalance| ∧ c6State.h5m.imbalance = []
    ∧ generateSignals c6State = Except.ok [] := by
  refine ⟨by norm_num [c6State], rfl, ?_⟩
  norm_num [generateSignals, analyzeTimeframe, c6State]

/-- Claim C6 (corrected): the rules are not independent — `generate_signals`
first requires all three timeframe analyses; if any one is unavailable (for
example because its history is empty) it returns the empty list without
evaluating any rule, so no rule, in particular not the imbalance-extreme
rule, can emit a signal. -/
theorem c6_missing_analysis_blocks_all (m : Monitor)
    (h : analyzeTimeframe m.h5m 3 = none) : generateSignals m = Except.ok [] := by
  rw [generateSignals, if_neg]
  simp [h]

/-- Witness for C6 at the initial monitor state (all histories empty). -/
theorem c6_missing_analysis_blocks_all_inst :
    analyzeTimeframe initMonitor.h5m 3 = none
    ∧ generateSignals initMonitor = Except.ok [] :=
  ⟨rfl, c6_missing_analysis_blocks_all initMonitor rfl⟩

/-- Counterexample to C7 as stated: the ask side is empty (total considered
volume 0), yet the imbalance is not 0 — the previous non-zero value
survives the computation. -/
theorem c7_empty_side_nonzero_imbalance :
    c7Book.asks = [] ∧ (calculateMetrics c7Book c7Prev).imbalance = 100/3
    ∧ (100/3 : ℚ) ≠ 0 := by
  refine ⟨rfl, ?_, by norm_num⟩
  norm_num [calculateMetrics, c7Book, topBids, topAsks, c7Prev]

/-- The notional volume of a list of levels is the quantity sum scaled by
the reference price. -/
theorem topNotional_eq (l : List (ℚ × ℚ)) (price : ℚ) :
    topNotional l price = (l.map (fun e => e.2)).sum * price := by
  induction l with
  | nil => simp [topNotional]
  | cons e rest ih =>
    simp only [topNotional, List.map_cons, List.sum_cons, add_mul] at ih ⊢
    rw [ih]

/-- A non-empty list of positive rationals has positive sum. -/
theorem sum_pos_of_forall_pos (l : List ℚ) (h : ∀ x ∈ l, 0 < x) (hne : l ≠ []) :
    0 < l.sum := by
  induction l with
  | nil => exact absurd rfl hne
  | cons x rest ih =>
    rw [List.sum_cons]
    rcases List.eq_nil_or_concat rest with hr | _
    · subst hr; simpa using h x (List.mem_cons_self _ _)
    · have hrpos : 0 < rest.sum := by
        apply ih (fun y hy => h y (List.mem_cons_of_mem _ hy))
        rintro rfl
        simp_all
      have := h x (List.mem_cons_self _ _)
      linarith

/-- Claim C7 (corrected): when both top lists are non-empty and the book
holds only positive quantities (the invariant `_update_orderbook`
maintains), the computed imbalance lies in [-100, 100] and is exactly 0
whenever the total considered notional volume is not positive.  When a side
is empty the previous imbalance survives instead (the C7 counterexample), so
the claim's "including the empty-side case" fails. -/
theorem c7_imbalance_bounds (bk : Book) (prev : Metrics) (bb aa : ℚ × ℚ)
    (bs as2 : List (ℚ × ℚ))
    (hb : topBids bk.bids 10 = bb :: bs) (ha : topAsks bk.asks 10 = aa :: as2)
    (hqb : ∀ e ∈ bk.bids, 0 < e.2) (hqa : ∀ e ∈ bk.asks, 0 < e.2) :
    (-100 ≤ (calculateMetrics bk prev).imbalance
      ∧ (calculateMetrics bk prev).imbalance ≤ 100)
    ∧ (topNotional (bb :: bs) ((bb.1 + aa.1) / 2)
          + topNotional (aa :: as2) ((bb.1 + aa.1) / 2) ≤ 0
        → (calculateMetrics bk prev).imbalance = 0) := by
  have hcm : (calculateMetrics bk prev).imbalance =
      (if 0 < topNotional (bb :: bs) ((bb.1 + aa.1) / 2)
            + topNotional (aa :: as2) ((bb.1 + aa.1) / 2)
        then (topNotional (bb :: bs) ((bb.1 + aa.1) / 2)
              - topNotional (aa :: as2) ((bb.1 + aa.1) / 2))
            / (topNotional (bb :: bs) ((bb.1 + aa.1) / 2)
              + topNotional (aa :: as2) ((bb.1 + aa.1) / 2)) * 100
        else 0) := by
    simp [calculateMetrics, hb, ha]
  have hmb : ∀ e ∈ bb :: bs, 0 < e.2 := by
    intro e he
    rw [← hb, topBids] at he
    exact hqb e (List.mem_reverse.mp (List.take_subset _ _ he))
  have hma : ∀ e ∈ aa :: as2, 0 < e.2 := by
    intro e he
    rw [← ha, topAsks] at he
    exact hqa e (List.take_subset _ _ he)
  have hQb : 0 < ((bb :: bs).map (fun e => e.2)).sum := by
    apply sum_pos_of_forall_pos
    · intro x hx
      obtain ⟨e, he, rfl⟩ := List.mem_map.mp hx
      exact hmb e he
    · simp
  have hQa : 0 < ((aa :: as2).map (fun e => e.2)).sum := by
    apply sum_pos_of_forall_pos
    · intro x hx
      obtain ⟨e, he, rfl⟩ := List.mem_map.mp hx
      exact hma e he
    · simp
  rw [hcm]
  by_cases hT : 0 < topNotional (bb :: bs) ((bb.1 + aa.1) / 2)
      + topNotional (aa :: as2) ((bb.1 + aa.1) / 2)
  · rw [if_pos hT]
    have hBA : topNotional (bb :: bs) ((bb.1 + aa.1) / 2)
          + topNotional (aa :: as2) ((bb.1 + aa.1) / 2)
        = (((bb :: bs).map (fun e => e.2)).sum + ((aa :: as2).map (fun e => e.2)).sum)
            * ((bb.1 + aa.1) / 2) := by
      rw [topNotional_eq, topNotional_eq, add_mul]
    have hp : 0 < (bb.1 + aa.1) / 2 := by
      rcases mul_pos_iff.mp (hBA ▸ hT) with ⟨_, h2⟩ | ⟨h1, _⟩
      · exact h2
      · linarith
    have hB : 0 < topNotional (bb :: bs) ((bb.1 + aa.1) / 2) := by
      rw [topNotional_eq]
      exact mul_pos hQb hp
    have hA : 0 < topNotional (aa :: as2) ((bb.1 + aa.1) / 2) := by
      rw [topNotional_eq]
      exact mul_pos hQa hp
    refine ⟨⟨?_, ?_⟩, fun hh => absurd hT (not_lt.mpr hh)⟩
    · rw [div_mul_eq_mul_div, le_div_iff₀ hT]
      linarith
    · rw [div_mul_eq_mul_div, div_le_iff₀ hT]
      linarith
  · rw [if_neg hT]
    exact ⟨by norm_num, fun _ => rfl⟩

/-- Witness for C7 on a concrete two-sided book. -/
theorem c7_imbalance_bounds_inst :
    (-100 ≤ (calculateMetrics c7wBook c7Prev).imbalance
      ∧ (calculateMetrics c7wBook c7Prev).imbalance ≤ 100)
    ∧ (topNotional [((1 : ℚ), (2 : ℚ))] ((1 + 3) / 2)
          + topNotional [((3 : ℚ), (1 : ℚ))] ((1 + 3) / 2) ≤ 0
        → (calculateMetrics c7wBook c7Prev).imbalance = 0) :=
  c7_imbalance_bounds c7wBook c7Prev (1, 2) (3, 1) [] []
    (by decide) (by decide) (by decide) (by decide)

/-- Counterexample to C1 as stated: a delta processed in a state where all
three timeframe analyses are available.  Processing itself never invokes the
signal engine, and evaluating the engine on the resulting state does not
produce a signal list either — it aborts with the `KeyError` on the missing
`trend` key — so no "(possibly empty) ordered signal list" exists for this
delta. -/
theorem c1_signal_evaluation_errs :
    generateSignals (processDepthMessage c1State { b := [], a := [] } 0)
      = Except.error "KeyError: trend" := by
  simp [generateSignals, analyzeTimeframe, processDepthMessage, updateOrderbook,
    applyRawEntries, calculateMetrics, topBids, topAsks, updateHistory, minuteOf,
    pushCurrent, c1State]

/-- Claim C1 (corrected): per-delta processing runs book update, metrics and
history ingestion synchronously, but signal evaluation is not part of it;
and `generate_signals` can never return a non-empty list — whenever it
returns at all (rather than failing at the trend-alignment rule) the list is
empty. -/
theorem c1_per_delta_signals_empty (m : Monitor) (msg : DepthMsg) (t : Timestamp)
    (l : List String)
    (h : generateSignals (processDepthMessage m msg t) = Except.ok l) : l = [] := by
  rw [generateSignals] at h
  split_ifs at h
  exact (Except.ok.inj h).symm

/-- Minute-of-hour of the run's timestamps. -/
theorem c2Stamp_minute (j : Nat) : minuteOf (c2Stamp j) = j % 60 := by
  rw [c2Stamp, minuteOf]
  omega

/-- Microsecond component of the run's timestamps: 500 ms into the second,
so the `microsecond < 100000` gate of the 5m/15m rollup is never met. -/
theorem c2Stamp_micro (j : Nat) : microOf (c2Stamp j) = 500000 := by
  rw [c2Stamp, microOf]
  omega

/-- Unfolding one step of the run. -/
theorem c2Run_succ (k : Nat) :
    c2Run (k + 1) = processDepthMessage (c2Run k) { b := [], a := [] } (c2Stamp k) := by
  rw [c2Run, c2Run, List.range_succ, List.map_append, List.foldl_append]
  rfl

/-- Closed form of the run: after `k + 1` empty deltas one minute apart the
1m history holds exactly `k` flushed (zero) entries — nothing ever trims
it — and the buffer holds the latest sample keyed to minute `k mod 60`. -/
theorem c2Run_closed (k : Nat) :
    c2Run (k + 1) =
      { book := { bids := [], asks := [] },
        metrics := { bid_volume := 0, ask_volume := 0, imbalance := 0, current_price := 0 },
        h1m := { time := if k = 0 then none else some (c2Stamp k),
                 imbalance := List.replicate k 0,
                 bid_volume := List.replicate k 0,
                 ask_volume := List.replicate k 0 },
        h5m := { time := none, imbalance := [], bid_volume := [], ask_volume := [] },
        h15m := { time := none, imbalance := [], bid_volume := [], ask_volume := [] },
        minuteData := { imbalances := [0], bid_volumes := [0], ask_volumes := [0],
                        minute := some (k % 60) } } := by
  induction k with
  | zero =>
    rw [c2Run_succ]
    simp [c2Run, c2Stamp, processDepthMessage, updateOrderbook, applyRawEntries,
      calculateMetrics, topBids, topAsks, updateHistory, flushMinute, minuteOf,
      pushCurrent, initMonitor]
  | succ k ih =>
    rw [c2Run_succ, ih]
    have hmin : minuteOf (c2Stamp (k + 1)) = (k + 1) % 60 := c2Stamp_minute (k + 1)
    have hne2 : ¬ (some (k % 60) = some (minuteOf (c2Stamp (k + 1)))) := by
      rw [hmin]
      intro hh
      have h3 := Option.some.inj hh
      omega
    have hmic2 : ¬ (secondOf (c2Stamp (k + 1)) = 0
        ∧ microOf (c2Stamp (k + 1)) < 100000) := by
      rw [c2Stamp_micro]
      rintro ⟨_, hh⟩
      omega
    simp [processDepthMessage, updateOrderbook, applyRawEntries, calculateMetrics,
      topBids, topAsks, updateHistory, flushMinute, pushCurrent, hne2, hmic2, hmin,
      List.replicate_succ']
    omega

/-- Claim C2 (code_bug): `_cleanup_history` — the only place the 60/12/4
caps exist — is never called by any code path, so after 62 updates one
minute apart the 1m history holds 61 entries, exceeding the documented cap
of 60; applying the dead cleanup routine would have trimmed it to 60. -/
theorem c2_history_cap_exceeded :
    (c2Run 62).h1m.imbalance.length = 61
    ∧ 60 < (c2Run 62).h1m.imbalance.length
    ∧ (cleanupHistory (c2Run 62)).h1m.imbalance.length = 60 := by
  have h62 : (62 : Nat) = 61 + 1 := by norm_num
  rw [h62, c2Run_closed 61]
  refine ⟨by simp, by simp, ?_⟩
  simp [cleanupHistory, cleanupList]

/-- Counterexample to C5 as stated: a rollover from buffered minute 4 into
minute 5 — a 5-minute boundary — arriving at second 1.  The 1m flush does
happen (the 1m history grows from 5 to 6 entries), yet nothing is appended
to the 5m history, because the rollup additionally requires the triggering
update to land in the first 100 ms of second 0. -/
theorem c5_offsecond_rollover_skips_5m :
    minuteOf 301000000 % 5 = 0 ∧ secondOf 301000000 = 1
    ∧ (updateHistory c5State 301000000).h1m.imbalance.length = 6
    ∧ (updateHistory c5State 301000000).h5m.imbalance = [] := by
  refine ⟨by norm_num [minuteOf], by norm_num [secondOf], ?_, ?_⟩ <;>
    simp [updateHistory, flushMinute, minuteOf, secondOf, microOf, pushCurrent, c5State]

/-- Claim C5 (corrected): the 5m entry is appended only when, in addition to
the rollover into a minute `m` with `m mod 5 = 0`, the triggering update
arrives within the first 100 ms of second 0 and the just-closed buffer was
non-empty.  In that case exactly one entry is appended, equal to the sum of
the last five 1m entries (after the flush) divided by 5 — the mean of the
last five 1m entries whenever at least five exist; on a quarter-hour
boundary the 15m history likewise gains the sum of the last fifteen 1m
entries divided by 15, and otherwise it is untouched. -/
theorem c5_boundary_appends_mean (m : Monitor) (t : Timestamp) (mPrev : Nat)
    (hm : m.minuteData.minute = some mPrev) (hne : mPrev ≠ minuteOf t)
    (hbuf : m.minuteData.imbalances ≠ [])
    (hbv : m.minuteData.bid_volumes ≠ []) (hav : m.minuteData.ask_volumes ≠ [])
    (hsec : secondOf t = 0) (hmic : microOf t < 100000)
    (h5 : minuteOf t % 5 = 0) (hlen : 4 ≤ m.h1m.imbalance.length) :
    (updateHistory m t).h1m.imbalance
        = m.h1m.imbalance
          ++ [m.minuteData.imbalances.sum / (m.minuteData.imbalances.length : ℚ)]
    ∧ (lastN 5 ((updateHistory m t).h1m.imbalance)).length = 5
    ∧ (updateHistory m t).h5m.imbalance
        = m.h5m.imbalance ++ [(lastN 5 ((updateHistory m t).h1m.imbalance)).sum / 5]
    ∧ (updateHistory m t).h5m.bid_volume
        = m.h5m.bid_volume ++ [(lastN 5 ((updateHistory m t).h1m.bid_volume)).sum / 5]
    ∧ (updateHistory m t).h5m.ask_volume
        = m.h5m.ask_volume ++ [(lastN 5 ((updateHistory m t).h1m.ask_volume)).sum / 5]
    ∧ (updateHistory m t).h5m.imbalance.length = m.h5m.imbalance.length + 1
    ∧ (minuteOf t % 15 = 0 →
        (updateHistory m t).h15m.imbalance
          = m.h15m.imbalance ++ [(lastN 15 ((updateHistory m t).h1m.imbalance)).sum / 15])
    ∧ (minuteOf t % 15 ≠ 0 → (updateHistory m t).h15m = m.h15m) := by
  have hcond : ¬ m.minuteData.minute = some (minuteOf t) := by
    rw [hm]
    exact fun hh => hne (Option.some.inj hh)
  have hg1 : m.minuteData.minute ≠ none ∧ m.minuteData.imbalances ≠ [] := by
    refine ⟨?_, hbuf⟩
    rw [hm]
    simp
  have hg2 : ¬ (m.minuteData.bid_volumes = [] ∨ m.minuteData.ask_volumes = []) := by
    rintro (hh | hh)
    · exact hbv hh
    · exact hav hh
  have hsm : secondOf t = 0 ∧ microOf t < 100000 := ⟨hsec, hmic⟩
  by_cases h15 : minuteOf t % 15 = 0
  · have hU : updateHistory m t =
        { book := m.book, metrics := m.metrics,
          h1m := { time := some t,
                   imbalance := m.h1m.imbalance
                     ++ [m.minuteData.imbalances.sum / (m.minuteData.imbalances.length : ℚ)],
                   bid_volume := m.h1m.bid_volume
                     ++ [m.minuteData.bid_volumes.sum / (m.minuteData.bid_volumes.length : ℚ)],
                   ask_volume := m.h1m.ask_volume
                     ++ [m.minuteData.ask_volumes.sum / (m.minuteData.ask_volumes.length : ℚ)] },
          h5m := updateHigherTimeframe
            { time := some t,
              imbalance := m.h1m.imbalance
                ++ [m.minuteData.imbalances.sum / (m.minuteData.imbalances.length : ℚ)],
              bid_volume := m.h1m.bid_volume
                ++ [m.minuteData.bid_volumes.sum / (m.minuteData.bid_volumes.length : ℚ)],
              ask_volume := m.h1m.ask_volume
                ++ [m.minuteData.ask_volumes.sum / (m.minuteData.ask_volumes.length : ℚ)] }
            m.h5m t 5,
          h15m := updateHigherTimeframe
            { time := some t,
              imbalance := m.h1m.imbalance
                ++ [m.minuteData.imbalances.sum / (m.minuteData.imbalances.length : ℚ)],
              bid_volume := m.h1m.bid_volume
                ++ [m.minuteData.bid_volumes.sum / (m.minuteData.bid_volumes.length : ℚ)],
              ask_volume := m.h1m.ask_volume
                ++ [m.minuteData.ask_volumes.sum / (m.minuteData.ask_volumes.length : ℚ)] }
            m.h15m t 15,
          minuteData := { imbalances := [m.metrics.imbalance],
                          bid_volumes := [m.metrics.bid_volume],
                          ask_volumes := [m.metrics.ask_volume],
                          minute := some (minuteOf t) } } := by
      simp only [updateHistory, if_neg hcond, flushMinute, if_pos hg1, if_neg hg2,
        if_pos hsm, if_pos h5, if_pos h15, pushCurrent, List.nil_append]
    rw [hU]
    refine ⟨rfl, ?_, ?_, ?_, ?_, ?_, fun _ => ?_, fun hh => absurd h15 hh⟩
    · rw [lastN]
      simp only [List.length_drop, List.length_append, List.length_singleton]
      omega
    · simp [updateHigherTimeframe]
    · simp [updateHigherTimeframe]
    · simp [updateHigherTimeframe]
    · simp [updateHigherTimeframe]
    · simp [updateHigherTimeframe]
  · have hU : updateHistory m t =
        { book := m.book, metrics := m.metrics,
          h1m := { time := some t,
                   imbalance := m.h1m.imbalance
                     ++ [m.minuteData.imbalances.sum / (m.minuteData.imbalances.length : ℚ)],
                   bid_volume := m.h1m.bid_volume
                     ++ [m.minuteData.bid_volumes.sum / (m.minuteData.bid_volumes.length : ℚ)],
                   ask_volume := m.h1m.ask_volume
                     ++ [m.minuteData.ask_volumes.sum / (m.minuteData.ask_volumes.length : ℚ)] },
          h5m := updateHigherTimeframe
            { time := some t,
              imbalance := m.h1m.imbalance
                ++ [m.minuteData.imbalances.sum / (m.minuteData.imbalances.length : ℚ)],
              bid_volume := m.h1m.bid_volume
                ++ [m.minuteData.bid_volumes.sum / (m.minuteData.bid_volumes.length : ℚ)],
              ask_volume := m.h1m.ask_volume
                ++ [m.minuteData.ask_volumes.sum / (m.minuteData.ask_volumes.length : ℚ)] }
            m.h5m t 5,
          h15m := m.h15m,
          minuteData := { imbalances := [m.metrics.imbalance],
                          bid_volumes := [m.metrics.bid_volume],
                          ask_volumes := [m.metrics.ask_volume],
                          minute := some (minuteOf t) } } := by
      simp only [updateHistory, if_neg hcond, flushMinute, if_pos hg1, if_neg hg2,
        if_pos hsm, if_pos h5, if_neg h15, pushCurrent, List.nil_append]
    rw [hU]
    refine ⟨rfl, ?_, ?_, ?_, ?_, ?_, fun hh => absurd hh h15, fun _ => rfl⟩
    · rw [lastN]
      simp only [List.length_drop, List.length_append, List.length_singleton]
      omega
    · simp [updateHigherTimeframe]
    · simp [updateHigherTimeframe]
    · simp [updateHigherTimeframe]
    · simp [updateHigherTimeframe]

/-- Witness for C5 at the quarter-hour boundary `t = 900000000`
(minute 15, second 0, microsecond 0). -/
theorem c5_boundary_appends_mean_inst :
    c5wState.minuteData.minute = some 14
    ∧ (14 ≠ minuteOf 900000000 ∧ secondOf 900000000 = 0 ∧ microOf 900000000 < 100000
        ∧ minuteOf 900000000 % 5 = 0 ∧ 4 ≤ c5wState.h1m.imbalance.length)
    ∧ ((updateHistory c5wState 900000000).h1m.imbalance
        = c5wState.h1m.imbalance
          ++ [c5wState.minuteData.imbalances.sum / (c5wState.minuteData.imbalances.length : ℚ)]
    ∧ (lastN 5 ((updateHistory c5wState 900000000).h1m.imbalance)).length = 5
    ∧ (updateHistory c5wState 900000000).h5m.imbalance
        = c5wState.h5m.imbalance
          ++ [(lastN 5 ((updateHistory c5wState 900000000).h1m.imbalance)).sum / 5]
    ∧ (updateHistory c5wState 900000000).h5m.bid_volume
        = c5wState.h5m.bid_volume
          ++ [(lastN 5 ((updateHistory c5wState 900000000).h1m.bid_volume)).sum / 5]
    ∧ (updateHistory c5wState 900000000).h5m.ask_volume
        = c5wState.h5m.ask_volume
          ++ [(lastN 5 ((updateHistory c5wState 900000000).h1m.ask_volume)).sum / 5]
    ∧ (updateHistory c5wState 900000000).h5m.imbalance.length
        = c5wState.h5m.imbalance.length + 1
    ∧ (minuteOf 900000000 % 15 = 0 →
        (updateHistory c5wState 900000000).h15m.imbalance
          = c5wState.h15m.imbalance
            ++ [(lastN 15 ((updateHistory c5wState 900000000).h1m.imbalance)).sum / 15])
    ∧ (minuteOf 900000000 % 15 ≠ 0 →
        (updateHistory c5wState 900000000).h15m = c5wState.h15m)) :=
  ⟨rfl,
   ⟨by norm_num [minuteOf], by norm_num [secondOf], by norm_num [microOf],
    by norm_num [minuteOf], by norm_num [c5wState]⟩,
   c5_boundary_appends_mean c5wState 900000000 14 rfl
    (by norm_num [minuteOf]) (by norm_num [c5wState]) (by norm_num [c5wState])
    (by norm_num [c5wState]) (by norm_num [secondOf]) (by norm_num [microOf])
    (by norm_num [minuteOf]) (by norm_num [c5wState])⟩

/-- When the three buffer lists are in step (the invariant the code
maintains, since they are only ever appended to together), the flush never
hits the division-by-zero path. -/
theorem flushMinute_some (m : Monitor) (t : Timestamp)
    (hsync : m.minuteData.imbalances.length = m.minuteData.bid_volumes.length
      ∧ m.minuteData.imbalances.length = m.minuteData.ask_volumes.length) :
    ∃ m1, flushMinute m t = some m1 ∧ m1.metrics = m.metrics := by
  rw [flushMinute]
  by_cases h1 : m.minuteData.minute ≠ none ∧ m.minuteData.imbalances ≠ []
  · rw [if_pos h1]
    have hval : ¬ (m.minuteData.bid_volumes = [] ∨ m.minuteData.ask_volumes = []) := by
      rintro (hh | hh)
      · exact h1.2 (List.length_eq_zero.mp (by rw [hsync.1, hh]; rfl))
      · exact h1.2 (List.length_eq_zero.mp (by rw [hsync.2, hh]; rfl))
    rw [if_neg hval]
    refine ⟨_, rfl, ?_⟩
    split_ifs <;> rfl
  · rw [if_neg h1]
    exact ⟨m, rfl, rfl⟩

/-- `_update_history` always leaves the buffered minute equal to the
minute-of-hour of the processed timestamp, keeps the metrics, and ends with
the current snapshot as the last buffered sample. -/
theorem updateHistory_minute (m : Monitor) (t : Timestamp)
    (hsync : m.minuteData.imbalances.length = m.minuteData.bid_volumes.length
      ∧ m.minuteData.imbalances.length = m.minuteData.ask_volumes.length) :
    (updateHistory m t).minuteData.minute = some (minuteOf t)
    ∧ (updateHistory m t).metrics = m.metrics
    ∧ (updateHistory m t).minuteData.imbalances.getLast? = some m.metrics.imbalance := by
  rw [updateHistory]
  by_cases hc : m.minuteData.minute = some (minuteOf t)
  · rw [if_pos hc]
    exact ⟨by simp [pushCurrent, hc], rfl, by simp [pushCurrent]⟩
  · rw [if_neg hc]
    obtain ⟨m1, hm1, hmet⟩ := flushMinute_some m t hsync
    rw [hm1]
    exact ⟨by simp [pushCurrent], by simp [hmet], by simp [pushCurrent, hmet]⟩

/-- When the buffered minute already equals the update's minute-of-hour,
`_update_history` only appends the snapshot to the buffer. -/
theorem updateHistory_same_minute (m : Monitor) (t : Timestamp)
    (h : m.minuteData.minute = some (minuteOf t)) :
    updateHistory m t = { m with minuteData := pushCurrent m.minuteData m.metrics } := by
  rw [updateHistory, if_pos h]

/-- Claim C10 (confirmed): minute rollover is detected purely on the
minute-of-hour value (0–59).  When two consecutively processed updates share
it — even when they are whole hours apart — the second one flushes nothing:
the 1m, 5m and 15m histories are untouched and its snapshot accumulates in
the same minute bucket that already ends with the first update's snapshot. -/
theorem c10_same_minute_no_flush (m : Monitor) (t1 t2 : Timestamp)
    (hmin : minuteOf t1 = minuteOf t2)
    (hsync : m.minuteData.imbalances.length = m.minuteData.bid_volumes.length
      ∧ m.minuteData.imbalances.length = m.minuteData.ask_volumes.length) :
    (updateHistory (updateHistory m t1) t2).h1m = (updateHistory m t1).h1m
    ∧ (updateHistory (updateHistory m t1) t2).h5m = (updateHistory m t1).h5m
    ∧ (updateHistory (updateHistory m t1) t2).h15m = (updateHistory m t1).h15m
    ∧ (updateHistory m t1).minuteData.imbalances.getLast? = some m.metrics.imbalance
    ∧ (updateHistory (updateHistory m t1) t2).minuteData.imbalances
        = (updateHistory m t1).minuteData.imbalances ++ [m.metrics.imbalance] := by
  obtain ⟨hm1, hmet1, hlast1⟩ := updateHistory_minute m t1 hsync
  have hm2 : (updateHistory m t1).minuteData.minute = some (minuteOf t2) := by
    rw [hm1, hmin]
  rw [updateHistory_same_minute _ t2 hm2]
  exact ⟨rfl, rfl, rfl, hlast1, by simp [pushCurrent, hmet1]⟩

/-- Witness for C10: two updates exactly one hour apart (both at minute 0 of
their hour). -/
theorem c10_same_minute_no_flush_inst :
    minuteOf 0 = minuteOf 3600000000
    ∧ ((updateHistory (updateHistory initMonitor 0) 3600000000).h1m
        = (updateHistory initMonitor 0).h1m
      ∧ (updateHistory (updateHistory initMonitor 0) 3600000000).h5m
        = (updateHistory initMonitor 0).h5m
      ∧ (updateHistory (updateHistory initMonitor 0) 3600000000).h15m
        = (updateHistory initMonitor 0).h15m
      ∧ (updateHistory initMonitor 0).minuteData.imbalances.getLast?
        = some initMonitor.metrics.imbalance
      ∧ (updateHistory (updateHistory initMonitor 0) 3600000000).minuteData.imbalances
        = (updateHistory initMonitor 0).minuteData.imbalances
          ++ [initMonitor.metrics.imbalance]) :=
  ⟨by norm_num [minuteOf],
   c10_same_minute_no_flush initMonitor 0 3600000000 (by norm_num [minuteOf]) ⟨rfl, rfl⟩⟩

/-- Witness for C1: after one processed delta from the initial state, the
signal evaluation returns, and the returned list is empty. -/
theorem c1_per_delta_signals_empty_inst :
    generateSignals (processDepthMessage initMonitor { b := [], a := [] } 0) = Except.ok []
    ∧ ([] : List String) = [] :=
  ⟨by simp [generateSignals, analyzeTimeframe, processDepthMessage, updateOrderbook,
      applyRawEntries, calculateMetrics, topBids, topAsks, updateHistory, flushMinute,
      minuteOf, pushCurrent, initMonitor],
   c1_per_delta_signals_empty initMonitor { b := [], a := [] } 0 []
    (by simp [generateSignals, analyzeTimeframe, processDepthMessage, updateOrderbook,
      applyRawEntries, calculateMetrics, topBids, topAsks, updateHistory, flushMinute,
      minuteOf, pushCurrent, initMonitor])⟩

end Orderwall
